import Mathlib

/-!
Verification development for the ziplayer ZIP-archive reader.

The Rust sources are shallowly embedded: a stream is a `List Nat` of bytes
together with an explicit cursor position, machine integers are `Nat`
(all values read from a stream are byte-built and the structures carry the
exact arithmetic the source performs), fallible operations return
`Except ZipError`.  Loops from the source (`loop { .. }`) are embedded as
fuel-indexed recursions where the fuel `data.length + 1` supplied by the
wrappers is proven sufficient; the fuel-exhaustion marker `none` is mapped
to the end-of-stream error and shown unreachable.

Namespace `Ziplayer` embeds `src/reader.rs` (the canonical reader used by
`ZipReader::new`); namespace `ZiplayerRead` embeds `src/read.rs`, which
holds the recovery indexer `intensive_index_archive`.
-/

set_option maxRecDepth 20000

deriving instance DecidableEq for Except

/-- Error type of the crate.  The constructors mirror the `ZipError` enum:
`IOError`, `InvalidSignature` and `EndOfCentralDirectoryNotFound` appear in
`src/lib.rs`; `EntryNotFound`, `InvalidEntry` and `MismatchedCompressionMethod`
are constructed in `src/reader.rs`; the invalid-UTF-8 kind is the error that
`String::from_utf8(buf)?` converts into (spec section 7 lists it as a distinct
kind).  Host I/O errors are modelled by their kind, which is all the source
ever inspects (`e.kind() == std::io::ErrorKind::UnexpectedEof`, and the
`NotFound` / `AlreadyExists` kinds built in `extract_file`). -/
inductive IOErrorKind where
  | unexpectedEof
  | notFound
  | alreadyExists
  | otherKind
deriving DecidableEq

inductive ZipError where
  | IOError (kind : IOErrorKind)
  | InvalidSignature (sig : Nat)
  | EndOfCentralDirectoryNotFound
  | EntryNotFound (path : List Nat)
  | InvalidEntry (offset : Nat)
  | MismatchedCompressionMethod (declared : Nat) (supplied : Nat)
  | InvalidUtf8
deriving DecidableEq

/-- `EOCD_SIG` from `src/lib.rs`. -/
def EOCD_SIG : Nat := 0x06054b50
/-- `CD_SIG` from `src/lib.rs`. -/
def CD_SIG : Nat := 0x02014b50
/-- `LFH_SIG`, the local-file-header signature `0x04034b50` (spec section 6;
the constant is referenced by both reader modules). -/
def LFH_SIG : Nat := 0x04034b50

/-- Read one byte at `p`; `read_exact` of a 1-byte buffer fails with
`UnexpectedEof` past the end of the stream. -/
def readByte (data : List Nat) (p : Nat) : Except ZipError (Nat × Nat) :=
  match data[p]? with
  | some b => .ok (b, p + 1)
  | none => .error (.IOError .unexpectedEof)

/-- Little-endian `u16` read (`read_u16::<LittleEndian>`). -/
def readU16 (data : List Nat) (p : Nat) : Except ZipError (Nat × Nat) :=
  match data[p]?, data[p + 1]? with
  | some a, some b => .ok (a + 256 * b, p + 2)
  | _, _ => .error (.IOError .unexpectedEof)

/-- Little-endian `u32` read (`read_u32::<LittleEndian>`). -/
def readU32 (data : List Nat) (p : Nat) : Except ZipError (Nat × Nat) :=
  match data[p]?, data[p + 1]?, data[p + 2]?, data[p + 3]? with
  | some a, some b, some c, some d =>
      .ok (a + 256 * b + 65536 * c + 16777216 * d, p + 4)
  | _, _, _, _ => .error (.IOError .unexpectedEof)

/-- `read_exact` of an `n`-byte buffer starting at `p`. -/
def readBytes (data : List Nat) (p n : Nat) : Except ZipError (List Nat × Nat) :=
  if p + n ≤ data.length then .ok ((data.drop p).take n, p + n)
  else .error (.IOError .unexpectedEof)

/-- Association-list model of the map types the crate uses
(`BTreeMap<PathBuf, _>` in `reader.rs`, `HashMap<OsString, _>` in `read.rs`):
lookup by key. -/
def alGet {α : Type} : List (List Nat × α) → List Nat → Option α
  | [], _ => none
  | (k, v) :: t, key => if k = key then some v else alGet t key

/-- Map insertion: replaces the value of an existing key (both `BTreeMap` and
`HashMap` `insert` overwrite), appends otherwise. -/
def alInsert {α : Type} : List (List Nat × α) → List Nat → α → List (List Nat × α)
  | [], key, v => [(key, v)]
  | (k, w) :: t, key, v =>
      if k = key then (key, v) :: t else (k, w) :: alInsert t key v

/-- Continuation-byte test for UTF-8 validation. -/
def utf8Cont (b : Nat) : Bool := 0x80 ≤ b && b ≤ 0xBF

/-- UTF-8 validity of a byte sequence, the success condition of
`String::from_utf8` used on filename fields in `src/reader.rs`. -/
def utf8Valid : List Nat → Bool
  | [] => true
  | b :: r =>
    if b ≤ 0x7F then utf8Valid r
    else if 0xC2 ≤ b && b ≤ 0xDF then
      match r with
      | c :: r2 => utf8Cont c && utf8Valid r2
      | [] => false
    else if b = 0xE0 then
      match r with
      | c :: d :: r2 => (0xA0 ≤ c && c ≤ 0xBF) && utf8Cont d && utf8Valid r2
      | _ => false
    else if (0xE1 ≤ b && b ≤ 0xEC) || b = 0xEE || b = 0xEF then
      match r with
      | c :: d :: r2 => utf8Cont c && utf8Cont d && utf8Valid r2
      | _ => false
    else if b = 0xED then
      match r with
      | c :: d :: r2 => (0x80 ≤ c && c ≤ 0x9F) && utf8Cont d && utf8Valid r2
      | _ => false
    else if b = 0xF0 then
      match r with
      | c :: d :: e :: r2 =>
          (0x90 ≤ c && c ≤ 0xBF) && utf8Cont d && utf8Cont e && utf8Valid r2
      | _ => false
    else if 0xF1 ≤ b && b ≤ 0xF3 then
      match r with
      | c :: d :: e :: r2 => utf8Cont c && utf8Cont d && utf8Cont e && utf8Valid r2
      | _ => false
    else if b = 0xF4 then
      match r with
      | c :: d :: e :: r2 =>
          (0x80 ≤ c && c ≤ 0x8F) && utf8Cont d && utf8Cont e && utf8Valid r2
      | _ => false
    else false

/-- A filesystem path, as a list of components (each a byte sequence). -/
abbrev FPath := List (List Nat)

/-- `PathBuf::from` on filename bytes followed by `Path::join` splits the
name on `/` (byte 47) into components; `splitPathAux` accumulates the
current component. -/
def splitPathAux : List Nat → List Nat → FPath
  | [], acc => [acc.reverse]
  | b :: t, acc =>
      if b = 47 then acc.reverse :: splitPathAux t [] else splitPathAux t (b :: acc)

def splitPath (bs : List Nat) : FPath := splitPathAux bs []

/-- Filesystem model for the extraction pipeline: the set of existing
directories and a map from file paths to contents. -/
structure FS where
  dirs : List FPath
  files : List (FPath × List Nat)
deriving DecidableEq

/-- `Path::exists`: the path is a directory or a file. -/
def FS.pathExists (fs : FS) (p : FPath) : Prop :=
  p ∈ fs.dirs ∨ p ∈ fs.files.map Prod.fst

instance (fs : FS) (p : FPath) : Decidable (fs.pathExists p) := by
  unfold FS.pathExists; infer_instance

/-- Write `p ↦ c`, replacing any previous contents. -/
def FS.setFile (fs : FS) (p : FPath) (c : List Nat) : FS :=
  { fs with files := (p, c) :: fs.files.filter (fun q => decide (q.1 ≠ p)) }

/-- `File::create(p)`: succeeds, truncating to an empty file, when the
parent directory of `p` exists (the filesystem root always does); fails
with a `NotFound` I/O error otherwise.  No missing directory is created. -/
def FS.createFile (fs : FS) (p : FPath) : Except ZipError FS :=
  if p.dropLast = [] ∨ p.dropLast ∈ fs.dirs then .ok (fs.setFile p [])
  else .error (.IOError .notFound)

def FS.getFile (fs : FS) (p : FPath) : Option (List Nat) :=
  (fs.files.find? (fun q => decide (q.1 = p))).map Prod.snd

/-- The `CompressionCodec` trait of `src/compression_codecs.rs`, as the
record of capabilities a caller supplies: the numeric method id, the
in-memory `expand`, and `streamed_expansion`, which maps the bytes still
available on the reader (from its current position to end-of-stream) to
the bytes written to the destination. -/
structure CompressionCodec where
  int_id : Nat
  expand : List Nat → Except ZipError (List Nat)
  streamed_expansion : List Nat → List Nat

/-- `NoCompressionCodec`: method id 0; `expand` returns the data as is and
`streamed_expansion` is `std::io::copy`, passing every remaining byte
through. -/
def NoCompressionCodec : CompressionCodec :=
  { int_id := 0, expand := fun d => .ok d, streamed_expansion := fun d => d }

namespace Ziplayer

/-- `CentralDirectory` from `src/structures.rs` (filenames are kept as the
raw byte sequence the record carries; `PathBuf` equality on the index keys
coincides with byte equality for these keys). -/
structure CentralDirectory where
  offset : Nat
  version_made_by : Nat
  version_needed_to_extract : Nat
  flags : Nat
  compression : Nat
  last_mod_time : Nat
  last_mod_date : Nat
  crc32 : Nat
  compressed_size : Nat
  uncompressed_size : Nat
  filename : List Nat
  extra_field : List Nat
  file_comment : List Nat
  disk_number_start : Nat
  internal_file_attributes : Nat
  external_file_attributes : Nat
  local_header_rel_offset : Nat
  is_directory : Bool
  len : Nat
deriving DecidableEq

/-- `LocalFileHeader` from `src/structures.rs`. -/
structure LocalFileHeader where
  offset : Nat
  version : Nat
  flags : Nat
  compression : Nat
  last_mod_time : Nat
  last_mod_date : Nat
  crc32 : Nat
  compressed_size : Nat
  uncompressed_size : Nat
  filename : List Nat
  extra_field : List Nat
  data_offset : Nat
deriving DecidableEq

/-- `EndOfCentralDirectory` from `src/structures.rs`. -/
structure EndOfCentralDirectory where
  disk_number : Nat
  disk_with_central_directory : Nat
  number_of_central_directory_records_on_this_disk : Nat
  total_number_of_central_directory_records : Nat
  size_of_central_directory : Nat
  offset_of_start_of_central_directory : Nat
  zip_file_comment : List Nat
deriving DecidableEq

/-- Scanning loop of `find_next_signature` in `src/reader.rs`: read a byte;
on a first-byte match read the next byte and compare the pair against the
low 16 bits (`((next_byte as u16) << 8) | byte`); on a match read a
little-endian `u16` and compare against the high 16 bits.  Mismatching
candidates are not rewound: the scan continues after the bytes already
consumed.  `none` is the fuel-exhaustion marker; the wrappers supply
`data.length + 1` fuel, which is sufficient because the cursor advances
every iteration. -/
def findFrom (data : List Nat) (sigLower sigUpper sigFbyte : Nat) :
    Nat → Nat → Option (Except ZipError Nat)
  | 0, _ => none
  | fuel + 1, p =>
    match data[p]? with
    | none => some (.error (.IOError .unexpectedEof))
    | some byte =>
      if byte = sigFbyte then
        match data[p + 1]? with
        | none => some (.error (.IOError .unexpectedEof))
        | some next_byte =>
          if 256 * next_byte + byte = sigLower then
            match readU16 data (p + 2) with
            | .error e => some (.error e)
            | .ok (upper, _) =>
              if upper = sigUpper then some (.ok p)
              else findFrom data sigLower sigUpper sigFbyte fuel (p + 4)
          else findFrom data sigLower sigUpper sigFbyte fuel (p + 2)
      else findFrom data sigLower sigUpper sigFbyte fuel (p + 1)

/-- `find_next_signature` from `src/reader.rs`.  `pos` is the current stream
position (`start_pos`); with a hint the scan starts there, otherwise at
`pos`.  On success the reader is rewound to `start_pos` and the offset of
the match is returned. -/
def find_next_signature (data : List Nat) (signature : Nat) (pos : Nat)
    (hint : Option Nat) : Except ZipError (Nat × Nat) :=
  match findFrom data (signature % 65536) (signature / 65536 % 65536)
      (signature % 256) (data.length + 1) (hint.getD pos) with
  | none => .error (.IOError .unexpectedEof)
  | some (.error e) => .error e
  | some (.ok offset) => .ok (offset, pos)

/-- `find_eocd` from `src/reader.rs`: any scanner failure is converted to
`EndOfCentralDirectoryNotFound`; on success the record is decoded at the
returned offset (field layout: four u16s, two u32s, then a comment of
length given by a trailing u16). -/
def find_eocd (data : List Nat) (pos : Nat) :
    Except ZipError (EndOfCentralDirectory × Nat) :=
  match find_next_signature data EOCD_SIG pos none with
  | .error _ => .error .EndOfCentralDirectoryNotFound
  | .ok (offset, _) =>
    match readU32 data offset with
    | .error e => .error e
    | .ok (sig_candidate, _) =>
      if sig_candidate = EOCD_SIG then
        match readU16 data (offset + 4), readU16 data (offset + 6),
            readU16 data (offset + 8), readU16 data (offset + 10),
            readU32 data (offset + 12), readU32 data (offset + 16),
            readU16 data (offset + 20) with
        | .ok (disk_number, _), .ok (disk_with_cd, _), .ok (records_this_disk, _),
          .ok (total_records, _), .ok (size_of_cd, _), .ok (cd_offset, _),
          .ok (comment_len, _) =>
          match readBytes data (offset + 22) comment_len with
          | .error e => .error e
          | .ok (comment, _) =>
            .ok ({ disk_number := disk_number,
                   disk_with_central_directory := disk_with_cd,
                   number_of_central_directory_records_on_this_disk := records_this_disk,
                   total_number_of_central_directory_records := total_records,
                   size_of_central_directory := size_of_cd,
                   offset_of_start_of_central_directory := cd_offset,
                   zip_file_comment := comment }, offset + 22 + comment_len)
        | _, _, _, _, _, _, _ => .error (.IOError .unexpectedEof)
      else .error .EndOfCentralDirectoryNotFound

/-- `parse_central_dir` from `src/reader.rs`: verify the signature, read the
42 fixed bytes of fields, then filename (UTF-8 checked by
`String::from_utf8`), extra field and comment; `len` is the total consumed
length (`stream_position() - offset`) and `is_directory` is derived as
`uncompressed_size == 0`. -/
def parse_central_dir (data : List Nat) (offset : Nat) :
    Except ZipError (CentralDirectory × Nat) :=
  match readU32 data offset with
  | .error e => .error e
  | .ok (sig_candidate, _) =>
    if sig_candidate ≠ CD_SIG then .error (.InvalidSignature sig_candidate)
    else
      match readU16 data (offset + 4), readU16 data (offset + 6),
          readU16 data (offset + 8), readU16 data (offset + 10),
          readU16 data (offset + 12), readU16 data (offset + 14),
          readU32 data (offset + 16), readU32 data (offset + 20),
          readU32 data (offset + 24), readU16 data (offset + 28),
          readU16 data (offset + 30), readU16 data (offset + 32),
          readU16 data (offset + 34), readU16 data (offset + 36),
          readU32 data (offset + 38), readU32 data (offset + 42) with
      | .ok (version_made_by, _), .ok (version_needed, _), .ok (flags, _),
        .ok (compression, _), .ok (last_mod_time, _), .ok (last_mod_date, _),
        .ok (crc32v, _), .ok (compressed_size, _), .ok (uncompressed_size, _),
        .ok (fname_len, _), .ok (extra_len, _), .ok (comment_len, _),
        .ok (disk_number_start, _), .ok (internal_attrs, _),
        .ok (external_attrs, _), .ok (rel_offset, _) =>
        match readBytes data (offset + 46) fname_len with
        | .error e => .error e
        | .ok (fnameB, _) =>
          if utf8Valid fnameB then
            match readBytes data (offset + 46 + fname_len) extra_len with
            | .error e => .error e
            | .ok (extraB, _) =>
              match readBytes data (offset + 46 + fname_len + extra_len) comment_len with
              | .error e => .error e
              | .ok (commentB, _) =>
                .ok ({ offset := offset,
                       version_made_by := version_made_by,
                       version_needed_to_extract := version_needed,
                       flags := flags,
                       compression := compression,
                       last_mod_time := last_mod_time,
                       last_mod_date := last_mod_date,
                       crc32 := crc32v,
                       compressed_size := compressed_size,
                       uncompressed_size := uncompressed_size,
                       filename := fnameB,
                       extra_field := extraB,
                       file_comment := commentB,
                       disk_number_start := disk_number_start,
                       internal_file_attributes := internal_attrs,
                       external_file_attributes := external_attrs,
                       local_header_rel_offset := rel_offset,
                       is_directory := uncompressed_size == 0,
                       len := offset + 46 + fname_len + extra_len + comment_len - offset },
                     offset + 46 + fname_len + extra_len + comment_len)
          else .error .InvalidUtf8
      | _, _, _, _, _, _, _, _, _, _, _, _, _, _, _, _ =>
        .error (.IOError .unexpectedEof)

/-- `parse_header` from `src/reader.rs`: a failed signature read at
end-of-stream is `InvalidEntry(offset)`; a wrong signature is
`InvalidSignature`; crc32 and the two sizes are read inline only when flag
bit 3 is clear (they stay `0` otherwise); `data_offset` is the stream
position after the extra field, where the payload starts. -/
def parse_header (data : List Nat) (offset : Nat) :
    Except ZipError (LocalFileHeader × Nat) :=
  match readU32 data offset with
  | .error _ => .error (.InvalidEntry offset)
  | .ok (sig_candidate, _) =>
    if sig_candidate = LFH_SIG then
      match readU16 data (offset + 4), readU16 data (offset + 6),
          readU16 data (offset + 8), readU16 data (offset + 10),
          readU16 data (offset + 12) with
      | .ok (version, _), .ok (flags, _), .ok (compression, _),
        .ok (last_mod_time, _), .ok (last_mod_date, _) =>
        if flags &&& 8 = 0 then
          match readU32 data (offset + 14), readU32 data (offset + 18),
              readU32 data (offset + 22), readU16 data (offset + 26),
              readU16 data (offset + 28) with
          | .ok (crc32v, _), .ok (compressed_size, _), .ok (uncompressed_size, _),
            .ok (fname_len, _), .ok (extra_len, _) =>
            match readBytes data (offset + 30) fname_len with
            | .error e => .error e
            | .ok (fnameB, _) =>
              if utf8Valid fnameB then
                match readBytes data (offset + 30 + fname_len) extra_len with
                | .error e => .error e
                | .ok (extraB, _) =>
                  .ok ({ offset := offset, version := version, flags := flags,
                         compression := compression,
                         last_mod_time := last_mod_time,
                         last_mod_date := last_mod_date,
                         crc32 := crc32v, compressed_size := compressed_size,
                         uncompressed_size := uncompressed_size,
                         filename := fnameB, extra_field := extraB,
                         data_offset := offset + 30 + fname_len + extra_len },
                       offset + 30 + fname_len + extra_len)
              else .error .InvalidUtf8
          | _, _, _, _, _ => .error (.IOError .unexpectedEof)
        else
          match readU16 data (offset + 14), readU16 data (offset + 16) with
          | .ok (fname_len, _), .ok (extra_len, _) =>
            match readBytes data (offset + 18) fname_len with
            | .error e => .error e
            | .ok (fnameB, _) =>
              if utf8Valid fnameB then
                match readBytes data (offset + 18 + fname_len) extra_len with
                | .error e => .error e
                | .ok (extraB, _) =>
                  .ok ({ offset := offset, version := version, flags := flags,
                         compression := compression,
                         last_mod_time := last_mod_time,
                         last_mod_date := last_mod_date,
                         crc32 := 0, compressed_size := 0,
                         uncompressed_size := 0,
                         filename := fnameB, extra_field := extraB,
                         data_offset := offset + 18 + fname_len + extra_len },
                       offset + 18 + fname_len + extra_len)
              else .error .InvalidUtf8
          | _, _ => .error (.IOError .unexpectedEof)
      | _, _, _, _, _ => .error (.IOError .unexpectedEof)
    else .error (.InvalidSignature sig_candidate)

/-- Loop body of `index_archive` in `src/reader.rs`: scan for the next
central-directory signature at or after `hint`, decode the record there,
advance `hint` by the decoded length, insert the record keyed by filename.
A scanner error equal to `IOError(UnexpectedEof)` ends the loop with the
accumulated index; other errors propagate.  The reader cursor (`pos`) is
carried through: after a successful parse it sits at the end of the record,
and on the terminating end-of-stream scan the byte-wise reads have consumed
the stream, leaving the cursor at `data.length`. -/
def index_loop (data : List Nat) :
    Nat → Nat → Nat → List (List Nat × CentralDirectory) →
    Option (Except ZipError (List (List Nat × CentralDirectory) × Nat))
  | 0, _, _, _ => none
  | fuel + 1, hint, pos, idx =>
    match find_next_signature data CD_SIG pos (some hint) with
    | .error e =>
      if e = ZipError.IOError .unexpectedEof then some (.ok (idx, data.length))
      else some (.error e)
    | .ok (offset, _) =>
      match parse_central_dir data offset with
      | .error e => some (.error e)
      | .ok (header, posAfter) =>
        index_loop data fuel (hint + header.len) posAfter
          (alInsert idx header.filename header)

/-- `index_archive` from `src/reader.rs`.  The reader is rewound
(`reader.rewind()`, cursor 0) and the loop starts at `hint` (0 if absent).
The `none` branch (fuel exhaustion) is unreachable: the hint grows by at
least 46 bytes per iteration. -/
def index_archive (data : List Nat) (hint : Option Nat) :
    Except ZipError (List (List Nat × CentralDirectory) × Nat) :=
  match index_loop data (data.length + 1) (hint.getD 0) 0 [] with
  | none => .error (.IOError .unexpectedEof)
  | some r => r

/-- `dump_file` from `src/reader.rs`: re-parse the local header at the
recorded offset of the entry, seek to the payload start it reports, and read
exactly `compressed_size` bytes. -/
def dump_file (data : List Nat) (cd : CentralDirectory) :
    Except ZipError (List Nat × Nat) :=
  match parse_header data cd.local_header_rel_offset with
  | .error e => .error e
  | .ok (header, _) => readBytes data header.data_offset cd.compressed_size

/-- `ZipEntryInfo` from `src/reader.rs`. -/
structure ZipEntryInfo where
  name : List Nat
  is_dir : Bool
  is_file : Bool
  is_symlink : Bool
  is_compressed : Bool
  size : Nat
  compressed_size : Nat
  crc32 : Nat
  compression_method : Nat
  last_modified : Nat
  last_accessed : Nat
  comment : Option (List Nat)
  offset : Nat
deriving DecidableEq

/-- `ZipEntryInfo::from_central_dir` from `src/reader.rs`: `is_dir` tests
bit `0x10` of the external attributes (unlike the index field
`is_directory`, which `parse_central_dir` derives from the sizes). -/
def ZipEntryInfo.from_central_dir (entry : CentralDirectory) : ZipEntryInfo :=
  { name := entry.filename,
    is_dir := entry.external_file_attributes &&& 0x10 == 0x10,
    is_file := entry.external_file_attributes &&& 0x20 == 0x20,
    is_symlink := entry.external_file_attributes &&& 0x40000000 == 0x40000000,
    is_compressed := entry.compression != 0,
    size := entry.uncompressed_size,
    compressed_size := entry.compressed_size,
    crc32 := entry.crc32,
    compression_method := entry.compression,
    last_modified := entry.last_mod_date,
    last_accessed := entry.last_mod_date,
    offset := entry.local_header_rel_offset,
    comment := none }

/-- `ZipReader::new` from `src/reader.rs`: find the EOCD, then index the
archive starting from its declared central-directory offset.  The result
carries the index and the final reader cursor. -/
def ZipReader.new (data : List Nat) :
    Except ZipError (List (List Nat × CentralDirectory) × Nat) :=
  match find_eocd data 0 with
  | .error e => .error e
  | .ok (eocd, _) =>
    index_archive data (some eocd.offset_of_start_of_central_directory)

/-- `ZipReader::extract_data_from_cd` from `src/reader.rs`: the in-memory
extraction path checks the codec id first, then dumps and expands. -/
def extract_data_from_cd (data : List Nat) (cd : CentralDirectory)
    (codec : CompressionCodec) : Except ZipError (List Nat) :=
  if cd.compression ≠ codec.int_id then
    .error (.MismatchedCompressionMethod cd.compression codec.int_id)
  else
    match dump_file data cd with
    | .error e => .error e
    | .ok (bytes, _) => codec.expand bytes

/-- `extract_file` from `src/reader.rs`, the file-writing extraction path.
It mirrors the source order exactly: build `dest_path = where_to.join(filename)`;
fail `NotFound` when `where_to` does not exist; fail `AlreadyExists` when
`dest_path` exists; `File::create(dest_path)`; only then compare the codec
id with the method of the entry and fail `MismatchedCompressionMethod` (the
created file persists); finally run `streamed_expansion` from the current
position of the reader (the source performs no seek to the payload of the entry).
Returns (result, filesystem, reader cursor). -/
def extract_file (fs : FS) (data : List Nat) (pos : Nat)
    (cd : CentralDirectory) (where_to : FPath) (codec : CompressionCodec) :
    Except ZipError Unit × FS × Nat :=
  let dest_path := where_to ++ splitPath cd.filename
  if ¬ fs.pathExists where_to then (.error (.IOError .notFound), fs, pos)
  else if fs.pathExists dest_path then (.error (.IOError .alreadyExists), fs, pos)
  else
    match fs.createFile dest_path with
    | .error e => (.error e, fs, pos)
    | .ok fs1 =>
      if codec.int_id ≠ cd.compression then
        (.error (.MismatchedCompressionMethod cd.compression codec.int_id), fs1, pos)
      else
        (.ok (), fs1.setFile dest_path (codec.streamed_expansion (data.drop pos)),
         data.length)

/-- Modelled from the spec: the section 4.1 scanner contract — "given a
stream, a 4-byte little-endian signature value, and an optional starting
offset, returns the absolute offset of the FIRST occurrence of that exact
4-byte sequence at or after the starting point, leaving the read position
restored to where it was before the call; fails with an end-of-stream
condition if the signature is never found."  `findFirstFrom` inspects the
4-byte window at every successive offset, so it genuinely returns the
first occurrence (unlike the source scanner above, which skips bytes it
consumed for a partial match). -/
def findFirstFrom (data : List Nat) (s0 s1 s2 s3 : Nat) :
    Nat → Nat → Option (Except ZipError Nat)
  | 0, _ => none
  | fuel + 1, p =>
    match data[p]?, data[p + 1]?, data[p + 2]?, data[p + 3]? with
    | some a, some b, some c, some d =>
      if a = s0 ∧ b = s1 ∧ c = s2 ∧ d = s3 then some (.ok p)
      else findFirstFrom data s0 s1 s2 s3 fuel (p + 1)
    | _, _, _, _ => some (.error (.IOError .unexpectedEof))

/-- Modelled from the spec: wrapper of the first-occurrence scan with the
same interface as the source scanner (start at the hint, or the current
position; restore the position on success). -/
def find_first_signature_spec (data : List Nat) (signature : Nat) (pos : Nat)
    (hint : Option Nat) : Except ZipError (Nat × Nat) :=
  match findFirstFrom data (signature % 256) (signature / 256 % 256)
      (signature / 65536 % 256) (signature / 16777216 % 256)
      (data.length + 1) (hint.getD pos) with
  | none => .error (.IOError .unexpectedEof)
  | some (.error e) => .error e
  | some (.ok offset) => .ok (offset, pos)

/-- Modelled from the spec: the section 4.3 reference loop for
`index_archive(stream, hint)` — "starting from hint (0 for a from-scratch
scan), repeatedly: scan for the next central-directory signature at or
after the current position, decode the entry, advance the position by the
total consumed length of the entry, insert into the index keyed by
filename.  Terminates cleanly, returning the accumulated index, when the
signature scan reports end-of-stream; any other decode or I/O failure
aborts the whole operation and is propagated."  The scan step is the
section 4.1 first-occurrence scanner `find_first_signature_spec`, as the
spec contract requires. -/
def index_archive_spec_loop (data : List Nat) :
    Nat → Nat → List (List Nat × CentralDirectory) →
    Option (Except ZipError (List (List Nat × CentralDirectory)))
  | 0, _, _ => none
  | fuel + 1, cur, idx =>
    match find_first_signature_spec data CD_SIG cur (some cur) with
    | .error (.IOError .unexpectedEof) => some (.ok idx)
    | .error e => some (.error e)
    | .ok (offset, _) =>
      match parse_central_dir data offset with
      | .error e => some (.error e)
      | .ok (entry, _) =>
        index_archive_spec_loop data fuel (cur + entry.len)
          (alInsert idx entry.filename entry)

/-- Modelled from the spec: wrapper of the section 4.3 reference loop,
starting from the hint (0 if absent). -/
def index_archive_spec (data : List Nat) (hint : Option Nat) :
    Except ZipError (List (List Nat × CentralDirectory)) :=
  match index_archive_spec_loop data (data.length + 1) (hint.getD 0) [] with
  | none => .error (.IOError .unexpectedEof)
  | some r => r

/-- The section 4.3 reference loop with ONE deliberate substitution: the
scan step is the SOURCE scanner `find_next_signature` (which may skip an
occurrence it partially consumed) instead of the first-occurrence scan the
spec contract prescribes.  `index_archive` refines this variant, and only
this variant: against `index_archive_spec_loop` above the equality fails
(see the C4 counterexample). -/
def index_archive_srcscan_loop (data : List Nat) :
    Nat → Nat → List (List Nat × CentralDirectory) →
    Option (Except ZipError (List (List Nat × CentralDirectory)))
  | 0, _, _ => none
  | fuel + 1, cur, idx =>
    match find_next_signature data CD_SIG cur (some cur) with
    | .error (.IOError .unexpectedEof) => some (.ok idx)
    | .error e => some (.error e)
    | .ok (offset, _) =>
      match parse_central_dir data offset with
      | .error e => some (.error e)
      | .ok (entry, _) =>
        index_archive_srcscan_loop data fuel (cur + entry.len)
          (alInsert idx entry.filename entry)

/-- Wrapper of the source-scanner variant of the reference loop. -/
def index_archive_srcscan (data : List Nat) (hint : Option Nat) :
    Except ZipError (List (List Nat × CentralDirectory)) :=
  match index_archive_srcscan_loop data (data.length + 1) (hint.getD 0) [] with
  | none => .error (.IOError .unexpectedEof)
  | some r => r

end Ziplayer

namespace ZiplayerRead

/-- `CentralDirectory` as built by `src/read.rs::parse_central_dir`
(filename is the raw byte sequence — `OsStr::from_bytes`, no UTF-8 check —
the relative-offset field keeps the `read.rs` name, and `is_directory` is
derived from both sizes being zero). -/
structure CentralDirectory where
  offset : Nat
  version_made_by : Nat
  version_needed_to_extract : Nat
  flags : Nat
  compression : Nat
  last_mod_time : Nat
  last_mod_date : Nat
  crc32 : Nat
  compressed_size : Nat
  uncompressed_size : Nat
  filename : List Nat
  extra_field : List Nat
  file_comment : List Nat
  disk_number_start : Nat
  internal_file_attributes : Nat
  external_file_attributes : Nat
  relative_offset_of_local_header : Nat
  is_directory : Bool
  len : Nat
deriving DecidableEq

/-- `LocalFileHeader` as built by `src/read.rs::parse_header` (crc32 and the
sizes hold the `!0` sentinel when deferred to a data descriptor). -/
structure LocalFileHeader where
  offset : Nat
  version : Nat
  flags : Nat
  compression : Nat
  last_mod_time : Nat
  last_mod_date : Nat
  crc32 : Nat
  compressed_size : Nat
  uncompressed_size : Nat
  filename : List Nat
  extra_field : List Nat
  data_offset : Nat
deriving DecidableEq

/-- `ZipEntry` from `src/structures.rs`: the tagged union used by the
recovery indexer for records of uncertain provenance. -/
inductive ZipEntry where
  | LocalFileHeader (header : LocalFileHeader)
  | CentralDirectory (entry : CentralDirectory)
  | EndOfCentralDirectory (eocd : Ziplayer.EndOfCentralDirectory)
deriving DecidableEq

/-- Scanning loop of `find_next_signature` in `src/read.rs`: this variant
reads TWO bytes per step (`read_exact(&mut lower)`), compares them against
the low half of the little-endian bytes of the signature, and on a match reads
and compares the top two bytes.  Mismatches continue after the consumed
bytes (2 or 4), so the scan only inspects even offsets relative to its
starting point. -/
def scanFrom (data : List Nat) (s0 s1 s2 s3 : Nat) :
    Nat → Nat → Option (Except ZipError Nat)
  | 0, _ => none
  | fuel + 1, p =>
    match data[p]?, data[p + 1]? with
    | some a, some b =>
      if a = s0 ∧ b = s1 then
        match data[p + 2]?, data[p + 3]? with
        | some c, some d =>
          if c = s2 ∧ d = s3 then some (.ok p)
          else scanFrom data s0 s1 s2 s3 fuel (p + 4)
        | _, _ => some (.error (.IOError .unexpectedEof))
      else scanFrom data s0 s1 s2 s3 fuel (p + 2)
    | _, _ => some (.error (.IOError .unexpectedEof))

/-- `find_next_signature` from `src/read.rs`: scan from the hint (or the
current position), rewinding to the starting position on success. -/
def find_next_signature (data : List Nat) (signature : Nat) (pos : Nat)
    (hint : Option Nat) : Except ZipError (Nat × Nat) :=
  match scanFrom data (signature % 256) (signature / 256 % 256)
      (signature / 65536 % 256) (signature / 16777216 % 256)
      (data.length + 1) (hint.getD pos) with
  | none => .error (.IOError .unexpectedEof)
  | some (.error e) => .error e
  | some (.ok offset) => .ok (offset, pos)

/-- `parse_central_dir` from `src/read.rs`.  Identical layout to the
`reader.rs` decoder, but the filename is taken as raw bytes and
`is_directory` is `compressed_size == 0 && uncompressed_size == 0`. -/
def parse_central_dir (data : List Nat) (offset : Nat) :
    Except ZipError (CentralDirectory × Nat) :=
  match readU32 data offset with
  | .error e => .error e
  | .ok (sig_candidate, _) =>
    if sig_candidate ≠ CD_SIG then .error (.InvalidSignature sig_candidate)
    else
      match readU16 data (offset + 4), readU16 data (offset + 6),
          readU16 data (offset + 8), readU16 data (offset + 10),
          readU16 data (offset + 12), readU16 data (offset + 14),
          readU32 data (offset + 16), readU32 data (offset + 20),
          readU32 data (offset + 24), readU16 data (offset + 28),
          readU16 data (offset + 30), readU16 data (offset + 32),
          readU16 data (offset + 34), readU16 data (offset + 36),
          readU32 data (offset + 38), readU32 data (offset + 42) with
      | .ok (version_made_by, _), .ok (version_needed, _), .ok (flags, _),
        .ok (compression, _), .ok (last_mod_time, _), .ok (last_mod_date, _),
        .ok (crc32v, _), .ok (compressed_size, _), .ok (uncompressed_size, _),
        .ok (fname_len, _), .ok (extra_len, _), .ok (comment_len, _),
        .ok (disk_number_start, _), .ok (internal_attrs, _),
        .ok (external_attrs, _), .ok (rel_offset, _) =>
        match readBytes data (offset + 46) fname_len with
        | .error e => .error e
        | .ok (fnameB, _) =>
          match readBytes data (offset + 46 + fname_len) extra_len with
          | .error e => .error e
          | .ok (extraB, _) =>
            match readBytes data (offset + 46 + fname_len + extra_len) comment_len with
            | .error e => .error e
            | .ok (commentB, _) =>
              .ok ({ offset := offset,
                     version_made_by := version_made_by,
                     version_needed_to_extract := version_needed,
                     flags := flags,
                     compression := compression,
                     last_mod_time := last_mod_time,
                     last_mod_date := last_mod_date,
                     crc32 := crc32v,
                     compressed_size := compressed_size,
                     uncompressed_size := uncompressed_size,
                     filename := fnameB,
                     extra_field := extraB,
                     file_comment := commentB,
                     disk_number_start := disk_number_start,
                     internal_file_attributes := internal_attrs,
                     external_file_attributes := external_attrs,
                     relative_offset_of_local_header := rel_offset,
                     is_directory := compressed_size == 0 && uncompressed_size == 0,
                     len := offset + 46 + fname_len + extra_len + comment_len - offset },
                   offset + 46 + fname_len + extra_len + comment_len)
      | _, _, _, _, _, _, _, _, _, _, _, _, _, _, _, _ =>
        .error (.IOError .unexpectedEof)

/-- `parse_header` from `src/read.rs`: like the `reader.rs` variant, but the
deferred crc32/sizes keep the `!0` (4294967295) sentinel and the filename is
raw bytes. -/
def parse_header (data : List Nat) (offset : Nat) :
    Except ZipError (LocalFileHeader × Nat) :=
  match readU32 data offset with
  | .error _ => .error (.InvalidEntry offset)
  | .ok (sig_candidate, _) =>
    if sig_candidate = LFH_SIG then
      match readU16 data (offset + 4), readU16 data (offset + 6),
          readU16 data (offset + 8), readU16 data (offset + 10),
          readU16 data (offset + 12) with
      | .ok (version, _), .ok (flags, _), .ok (compression, _),
        .ok (last_mod_time, _), .ok (last_mod_date, _) =>
        if flags &&& 8 = 0 then
          match readU32 data (offset + 14), readU32 data (offset + 18),
              readU32 data (offset + 22), readU16 data (offset + 26),
              readU16 data (offset + 28) with
          | .ok (crc32v, _), .ok (compressed_size, _), .ok (uncompressed_size, _),
            .ok (fname_len, _), .ok (extra_len, _) =>
            match readBytes data (offset + 30) fname_len with
            | .error e => .error e
            | .ok (fnameB, _) =>
              match readBytes data (offset + 30 + fname_len) extra_len with
              | .error e => .error e
              | .ok (extraB, _) =>
                .ok ({ offset := offset, version := version, flags := flags,
                       compression := compression,
                       last_mod_time := last_mod_time,
                       last_mod_date := last_mod_date,
                       crc32 := crc32v, compressed_size := compressed_size,
                       uncompressed_size := uncompressed_size,
                       filename := fnameB, extra_field := extraB,
                       data_offset := offset + 30 + fname_len + extra_len },
                     offset + 30 + fname_len + extra_len)
          | _, _, _, _, _ => .error (.IOError .unexpectedEof)
        else
          match readU16 data (offset + 14), readU16 data (offset + 16) with
          | .ok (fname_len, _), .ok (extra_len, _) =>
            match readBytes data (offset + 18) fname_len with
            | .error e => .error e
            | .ok (fnameB, _) =>
              match readBytes data (offset + 18 + fname_len) extra_len with
              | .error e => .error e
              | .ok (extraB, _) =>
                .ok ({ offset := offset, version := version, flags := flags,
                       compression := compression,
                       last_mod_time := last_mod_time,
                       last_mod_date := last_mod_date,
                       crc32 := 4294967295, compressed_size := 4294967295,
                       uncompressed_size := 4294967295,
                       filename := fnameB, extra_field := extraB,
                       data_offset := offset + 18 + fname_len + extra_len },
                     offset + 18 + fname_len + extra_len)
          | _, _ => .error (.IOError .unexpectedEof)
      | _, _, _, _, _ => .error (.IOError .unexpectedEof)
    else .error (.InvalidSignature sig_candidate)

/-- Loop body of `index_archive` in `src/read.rs` (same control flow as the
`reader.rs` loop, over the scanner and decoder of this module). -/
def index_loop (data : List Nat) :
    Nat → Nat → Nat → List (List Nat × CentralDirectory) →
    Option (Except ZipError (List (List Nat × CentralDirectory) × Nat))
  | 0, _, _, _ => none
  | fuel + 1, hint, pos, idx =>
    match find_next_signature data CD_SIG pos (some hint) with
    | .error e =>
      if e = ZipError.IOError .unexpectedEof then some (.ok (idx, data.length))
      else some (.error e)
    | .ok (offset, _) =>
      match parse_central_dir data offset with
      | .error e => some (.error e)
      | .ok (header, posAfter) =>
        index_loop data fuel (hint + header.len) posAfter
          (alInsert idx header.filename header)

/-- `index_archive` from `src/read.rs` (`reader.seek(SeekFrom::Start(0))`,
then the loop from `hint.unwrap_or(0)`). -/
def index_archive (data : List Nat) (hint : Option Nat) :
    Except ZipError (List (List Nat × CentralDirectory) × Nat) :=
  match index_loop data (data.length + 1) (hint.getD 0) 0 [] with
  | none => .error (.IOError .unexpectedEof)
  | some r => r

/-- Local-file-header scanning loop of `intensive_index_archive` in
`src/read.rs`: scan for `LFH_SIG` with NO hint — i.e. from the current
position of the reader — decode the header found, continue from the position the
decode left (the payload start).  An `UnexpectedEof` scanner error breaks
the loop with the accumulated map; other errors propagate. -/
def lfh_loop (data : List Nat) :
    Nat → Nat → List (List Nat × LocalFileHeader) →
    Option (Except ZipError (List (List Nat × LocalFileHeader)))
  | 0, _, _ => none
  | fuel + 1, pos, lh =>
    match find_next_signature data LFH_SIG pos none with
    | .error e =>
      if e = ZipError.IOError .unexpectedEof then some (.ok lh)
      else some (.error e)
    | .ok (offset, _) =>
      match parse_header data offset with
      | .error e => some (.error e)
      | .ok (header, posAfter) =>
        lfh_loop data fuel posAfter (alInsert lh header.filename header)

/-- Merge step of `intensive_index_archive`: every central-directory entry
is inserted first (central directory wins); a local-header entry is added
only when its filename is not already present. -/
def intensiveMerge (cd : List (List Nat × CentralDirectory))
    (lh : List (List Nat × LocalFileHeader)) : List (List Nat × ZipEntry) :=
  let idx1 := List.foldl
    (fun m p => alInsert m p.1 (ZipEntry.CentralDirectory p.2)) [] cd
  List.foldl
    (fun m p =>
      if (alGet m p.1).isSome then m
      else alInsert m p.1 (ZipEntry.LocalFileHeader p.2)) idx1 lh

/-- `intensive_index_archive` from `src/read.rs`: seek to 0; build the
central-directory view with `index_archive(reader, None)` (propagating its
errors — the `?` operator); then run the local-file-header scan from the
position the walk left the reader at; finally merge the two views. -/
def intensive_index_archive (data : List Nat) :
    Except ZipError (List (List Nat × ZipEntry)) :=
  match index_archive data none with
  | .error e => .error e
  | .ok (cd_index, pos) =>
    match lfh_loop data (data.length + 1) pos [] with
    | none => .error (.IOError .unexpectedEof)
    | some (.error e) => .error e
    | some (.ok lh_index) => .ok (intensiveMerge cd_index lh_index)

end ZiplayerRead

/-! Concrete inputs used by the witnesses and counterexamples below. -/

/-- The ASCII bytes of `hello.txt`. -/
def helloName : List Nat := [104, 101, 108, 108, 111, 46, 116, 120, 116]

/-- The 5 stored payload bytes (`hello`). -/
def helloPayload : List Nat := [104, 101, 108, 108, 111]

/-- Local file header of the minimal archive: method 0 (stored), flag bit 3
clear, compressed and uncompressed size 5, filename `hello.txt`, no extra
field.  39 bytes; the payload starts at offset 39. -/
def helloLfh : List Nat :=
  [0x50, 0x4B, 0x03, 0x04, 20, 0, 0, 0, 0, 0, 0, 0, 0, 0,
   0, 0, 0, 0, 5, 0, 0, 0, 5, 0, 0, 0, 9, 0, 0, 0] ++ helloName

/-- Central-directory record of the minimal archive at offset 44: sizes 5,
method 0, local-header offset 0, no extra/comment.  55 bytes. -/
def helloCdRec : List Nat :=
  [0x50, 0x4B, 0x01, 0x02, 20, 0, 20, 0, 0, 0, 0, 0, 0, 0, 0, 0,
   0, 0, 0, 0, 5, 0, 0, 0, 5, 0, 0, 0, 9, 0, 0, 0, 0, 0,
   0, 0, 0, 0, 0, 0, 0, 0, 0, 0, 0, 0] ++ helloName

/-- End-of-central-directory record at offset 99: one record, central
directory of 55 bytes at offset 44, empty comment.  22 bytes. -/
def helloEocd : List Nat :=
  [0x50, 0x4B, 0x05, 0x06, 0, 0, 0, 0, 1, 0, 1, 0,
   55, 0, 0, 0, 44, 0, 0, 0, 0, 0]

/-- The minimal well-formed one-file archive of the end-to-end scenario:
121 bytes, payload bytes 39..44. -/
def helloArchive : List Nat := helloLfh ++ helloPayload ++ helloCdRec ++ helloEocd

/-- The central-directory entry `ZipReader::new` indexes for `hello.txt`. -/
def helloEntry : Ziplayer.CentralDirectory :=
  { offset := 44, version_made_by := 20, version_needed_to_extract := 20,
    flags := 0, compression := 0, last_mod_time := 0, last_mod_date := 0,
    crc32 := 0, compressed_size := 5, uncompressed_size := 5,
    filename := helloName, extra_field := [], file_comment := [],
    disk_number_start := 0, internal_file_attributes := 0,
    external_file_attributes := 0, local_header_rel_offset := 0,
    is_directory := false, len := 55 }

/-- Destination directory `out` for extraction, and a filesystem where only
that directory exists. -/
def outDir : FPath := [[111, 117, 116]]

def helloFS : FS := { dirs := [[[111, 117, 116]]], files := [] }

/-- The destination path `out/hello.txt`. -/
def helloDest : FPath := [[111, 117, 116], [104, 101, 108, 108, 111, 46, 116, 120, 116]]

/-- A central-directory record with two-sided size 0 and external-attribute
bits all clear (an empty regular file as typically stored): crc 0,
compressed size 3, uncompressed size 0, filename `e`. -/
def emptyFileRec : List Nat :=
  [0x50, 0x4B, 0x01, 0x02, 0, 0, 0, 0, 0, 0, 0, 0, 0, 0, 0, 0,
   0, 0, 0, 0, 3, 0, 0, 0, 0, 0, 0, 0, 1, 0, 0, 0, 0, 0,
   0, 0, 0, 0, 0, 0, 0, 0, 0, 0, 0, 0, 101]

/-- The decoded form of `emptyFileRec`. -/
def emptyFileEntry : Ziplayer.CentralDirectory :=
  { offset := 0, version_made_by := 0, version_needed_to_extract := 0,
    flags := 0, compression := 0, last_mod_time := 0, last_mod_date := 0,
    crc32 := 0, compressed_size := 3, uncompressed_size := 0,
    filename := [101], extra_field := [], file_comment := [],
    disk_number_start := 0, internal_file_attributes := 0,
    external_file_attributes := 0, local_header_rel_offset := 0,
    is_directory := true, len := 47 }

/-- Two central-directory records sharing the filename `a`, crc32 1 and 2
respectively (47 bytes each). -/
def dupRec1 : List Nat :=
  [0x50, 0x4B, 0x01, 0x02, 0, 0, 0, 0, 0, 0, 0, 0, 0, 0, 0, 0,
   1, 0, 0, 0, 0, 0, 0, 0, 0, 0, 0, 0, 1, 0, 0, 0, 0, 0,
   0, 0, 0, 0, 0, 0, 0, 0, 0, 0, 0, 0, 97]

def dupRec2 : List Nat :=
  [0x50, 0x4B, 0x01, 0x02, 0, 0, 0, 0, 0, 0, 0, 0, 0, 0, 0, 0,
   2, 0, 0, 0, 0, 0, 0, 0, 0, 0, 0, 0, 1, 0, 0, 0, 0, 0,
   0, 0, 0, 0, 0, 0, 0, 0, 0, 0, 0, 0, 97]

/-- A stream holding the two duplicate-name records back to back. -/
def dupArchive : List Nat := dupRec1 ++ dupRec2

/-- The decoded later record (offset 47, crc32 2). -/
def dupEntry2 : Ziplayer.CentralDirectory :=
  { offset := 47, version_made_by := 0, version_needed_to_extract := 0,
    flags := 0, compression := 0, last_mod_time := 0, last_mod_date := 0,
    crc32 := 2, compressed_size := 0, uncompressed_size := 0,
    filename := [97], extra_field := [], file_comment := [],
    disk_number_start := 0, internal_file_attributes := 0,
    external_file_attributes := 0, local_header_rel_offset := 0,
    is_directory := true, len := 47 }

/-- The duplicate-name record preceded by a single spurious `0x50` byte:
the central-directory record starts at offset 1, overlapping a first-byte
scanner candidate at offset 0.  48 bytes. -/
def spurArchive : List Nat := 0x50 :: dupRec1

/-- The record of `spurArchive` as decoded at offset 1 (crc32 1). -/
def spurEntry : Ziplayer.CentralDirectory :=
  { offset := 1, version_made_by := 0, version_needed_to_extract := 0,
    flags := 0, compression := 0, last_mod_time := 0, last_mod_date := 0,
    crc32 := 1, compressed_size := 0, uncompressed_size := 0,
    filename := [97], extra_field := [], file_comment := [],
    disk_number_start := 0, internal_file_attributes := 0,
    external_file_attributes := 0, local_header_rel_offset := 0,
    is_directory := true, len := 47 }

/-- An arbitrary stored-method index entry with filename `a`, used by the
extraction counterexamples. -/
def plainEntryA : Ziplayer.CentralDirectory :=
  { offset := 0, version_made_by := 0, version_needed_to_extract := 0,
    flags := 0, compression := 0, last_mod_time := 0, last_mod_date := 0,
    crc32 := 0, compressed_size := 0, uncompressed_size := 0,
    filename := [97], extra_field := [], file_comment := [],
    disk_number_start := 0, internal_file_attributes := 0,
    external_file_attributes := 0, local_header_rel_offset := 0,
    is_directory := false, len := 47 }

/-- Like `plainEntryA` but with the two-component filename `a/b`. -/
def nestedEntryAB : Ziplayer.CentralDirectory :=
  { offset := 0, version_made_by := 0, version_needed_to_extract := 0,
    flags := 0, compression := 0, last_mod_time := 0, last_mod_date := 0,
    crc32 := 0, compressed_size := 0, uncompressed_size := 0,
    filename := [97, 47, 98], extra_field := [], file_comment := [],
    disk_number_start := 0, internal_file_attributes := 0,
    external_file_attributes := 0, local_header_rel_offset := 0,
    is_directory := false, len := 47 }

/-- Destination directory `d` and a filesystem where only it exists. -/
def wtDir : FPath := [[100]]

def fsOnlyD : FS := { dirs := [[[100]]], files := [] }

/-- `fsOnlyD` after `File::create` of `d/a`. -/
def fsOnlyDAfter : FS := { dirs := [[[100]]], files := [([[100], [97]], [])] }

/-- A supplied codec whose numeric identifier (8, the deflate method code)
differs from the stored method 0 of the entries above. -/
def testCodec8 : CompressionCodec :=
  { int_id := 8, expand := fun _ => .ok [], streamed_expansion := fun _ => [] }

/-- A 4-byte stream that is a bare, truncated central-directory signature:
readable everywhere, contains no end-of-central-directory signature. -/
def truncCdStream : List Nat := [0x50, 0x4B, 0x01, 0x02]

/-- A buffer containing the EOCD signature bytes `50 4B 05 06` at offset 1,
overlapping a spurious first-byte match at offset 0. -/
def overlapBuf : List Nat := [0x50, 0x50, 0x4B, 0x05, 0x06]

/-- A buffer with the EOCD signature at offset 1 and no earlier first-byte
candidate. -/
def sigBuf : List Nat := [0, 0x50, 0x4B, 0x05, 0x06, 7]

/-! Helper lemmas. -/

theorem alGet_alInsert {α : Type} (m : List (List Nat × α)) (k : List Nat) (v : α) :
    alGet (alInsert m k v) k = some v := by
  induction m with
  | nil => simp [alInsert, alGet]
  | cons hd t ih =>
    obtain ⟨k', v'⟩ := hd
    by_cases h : k' = k
    · simp [alInsert, h, alGet]
    · simp [alInsert, h, alGet, ih]

/-- A successful scan (reader.rs variant) returns an offset at or after the
starting point, with at least 4 readable bytes there. -/
theorem findFrom_bounds (data : List Nat) (sl su sf : Nat) :
    ∀ fuel p off, Ziplayer.findFrom data sl su sf fuel p = some (.ok off) →
      p ≤ off ∧ off + 4 ≤ data.length := by
  intro fuel
  induction fuel with
  | zero => intro p off h; simp [Ziplayer.findFrom] at h
  | succ n ih =>
    intro p off h
    unfold Ziplayer.findFrom at h
    cases hb : data[p]? with
    | none => rw [hb] at h; simp at h
    | some byte =>
      rw [hb] at h
      dsimp only at h
      by_cases h1 : byte = sf
      · rw [if_pos h1] at h
        cases hb2 : data[p + 1]? with
        | none => rw [hb2] at h; simp at h
        | some nb =>
          rw [hb2] at h
          dsimp only at h
          by_cases h2 : 256 * nb + byte = sl
          · rw [if_pos h2] at h
            cases hu : readU16 data (p + 2) with
            | error e => rw [hu] at h; simp at h
            | ok pr =>
              obtain ⟨upper, q⟩ := pr
              rw [hu] at h
              dsimp only at h
              by_cases h3 : upper = su
              · rw [if_pos h3] at h
                simp only [Option.some.injEq, Except.ok.injEq] at h
                subst h
                refine ⟨Nat.le_refl _, ?_⟩
                unfold readU16 at hu
                cases hc : data[p + 2]? <;> rw [hc] at hu
                · simp at hu
                · cases hd : data[p + 3]? <;> rw [hd] at hu
                  · simp at hu
                  · have := (List.getElem?_eq_some.mp hd).1
                    omega
              · rw [if_neg h3] at h
                have := ih (p + 4) off h
                exact ⟨by omega, this.2⟩
          · rw [if_neg h2] at h
            have := ih (p + 2) off h
            exact ⟨by omega, this.2⟩
      · rw [if_neg h1] at h
        have := ih (p + 1) off h
        exact ⟨by omega, this.2⟩

/-- On byte-valued data, a successful scan lands on the exact little-endian
bytes of the signature halves. -/
theorem findFrom_sound (data : List Nat) (sl su sf : Nat)
    (hb : ∀ b ∈ data, b < 256) (hsf : sl % 256 = sf) (_hsu : su < 65536) :
    ∀ fuel p off, Ziplayer.findFrom data sl su sf fuel p = some (.ok off) →
      data[off]? = some sf ∧ data[off + 1]? = some (sl / 256) ∧
      data[off + 2]? = some (su % 256) ∧ data[off + 3]? = some (su / 256) := by
  intro fuel
  induction fuel with
  | zero => intro p off h; simp [Ziplayer.findFrom] at h
  | succ n ih =>
    intro p off h
    unfold Ziplayer.findFrom at h
    cases hb0 : data[p]? with
    | none => rw [hb0] at h; simp at h
    | some byte =>
      rw [hb0] at h
      dsimp only at h
      by_cases h1 : byte = sf
      · rw [if_pos h1] at h
        cases hb2 : data[p + 1]? with
        | none => rw [hb2] at h; simp at h
        | some nb =>
          rw [hb2] at h
          dsimp only at h
          by_cases h2 : 256 * nb + byte = sl
          · rw [if_pos h2] at h
            cases hu : readU16 data (p + 2) with
            | error e => rw [hu] at h; simp at h
            | ok pr =>
              obtain ⟨upper, q⟩ := pr
              rw [hu] at h
              dsimp only at h
              by_cases h3 : upper = su
              · rw [if_pos h3] at h
                simp only [Option.some.injEq, Except.ok.injEq] at h
                subst h
                unfold readU16 at hu
                cases hc : data[p + 2]? with
                | none => rw [hc] at hu; simp at hu
                | some b2 =>
                  rw [hc] at hu
                  cases hd : data[p + 3]? with
                  | none => rw [hd] at hu; simp at hu
                  | some b3 =>
                    rw [hd] at hu
                    dsimp only at hu
                    simp only [Except.ok.injEq, Prod.mk.injEq] at hu
                    have hb2lt : b2 < 256 := hb b2 (List.getElem?_mem hc)
                    have hnb : nb = sl / 256 := by omega
                    have hb2v : b2 = su % 256 := by omega
                    have hb3v : b3 = su / 256 := by omega
                    subst h1
                    exact ⟨hb0, by rw [hb2, hnb], by rw [hb2v], by rw [hb3v]⟩
              · rw [if_neg h3] at h
                exact ih (p + 4) off h
          · rw [if_neg h2] at h
            exact ih (p + 2) off h
      · rw [if_neg h1] at h
        exact ih (p + 1) off h

/-- Elimination form for a successful `find_next_signature` (reader.rs). -/
theorem find_next_signature_ok (data : List Nat) (signature pos : Nat)
    (hint : Option Nat) (off pos2 : Nat)
    (h : Ziplayer.find_next_signature data signature pos hint = .ok (off, pos2)) :
    Ziplayer.findFrom data (signature % 65536) (signature / 65536 % 65536) (signature % 256)
      (data.length + 1) (hint.getD pos) = some (.ok off) ∧ pos2 = pos := by
  unfold Ziplayer.find_next_signature at h
  cases hf : Ziplayer.findFrom data (signature % 65536) (signature / 65536 % 65536)
      (signature % 256) (data.length + 1) (hint.getD pos) with
  | none => rw [hf] at h; simp at h
  | some r =>
    rw [hf] at h
    cases r with
    | error e => simp at h
    | ok o =>
      simp only [Except.ok.injEq, Prod.mk.injEq] at h
      exact ⟨by rw [h.1], h.2.symm⟩

/-- Claim C3 counterexample: the scanner does NOT return the first
occurrence of the signature at or after the starting point.  `overlapBuf`
holds the EOCD signature bytes `50 4B 05 06` at offset 1, and the scan is
started at or before that offset (both without a hint, i.e. from position
0, and with hint 0), yet `find_next_signature` reports end-of-stream
instead of offset 1: the spurious first-byte match at offset 0 consumes the
bytes of the real occurrence. -/
theorem c3_first_occurrence_counterexample :
    Ziplayer.find_next_signature overlapBuf EOCD_SIG 0 none =
      .error (.IOError .unexpectedEof) ∧
    Ziplayer.find_next_signature overlapBuf EOCD_SIG 0 (some 0) =
      .error (.IOError .unexpectedEof) ∧
    overlapBuf[1]? = some 0x50 ∧ overlapBuf[2]? = some 0x4B ∧
    overlapBuf[3]? = some 0x05 ∧ overlapBuf[4]? = some 0x06 := by decide

/-- Claim C3 (amended): when `find_next_signature` succeeds on a stream of
bytes, the returned offset is at or after the starting point (the hint, or
the current position when no hint is given), the four bytes at that offset
are exactly the little-endian encoding of the signature (an occurrence,
though not necessarily the first), and the reported stream position is
restored to its value before the call. -/
theorem c3_scanner_sound (data : List Nat) (signature pos : Nat)
    (hint : Option Nat) (off pos2 : Nat)
    (hbytes : ∀ b ∈ data, b < 256) (hsig : signature < 4294967296)
    (h : Ziplayer.find_next_signature data signature pos hint = .ok (off, pos2)) :
    pos2 = pos ∧ hint.getD pos ≤ off ∧
    data[off]? = some (signature % 256) ∧
    data[off + 1]? = some (signature / 256 % 256) ∧
    data[off + 2]? = some (signature / 65536 % 256) ∧
    data[off + 3]? = some (signature / 16777216 % 256) := by
  obtain ⟨hf, hp⟩ := find_next_signature_ok data signature pos hint off pos2 h
  have hbnd := findFrom_bounds data (signature % 65536) (signature / 65536 % 65536)
    (signature % 256) (data.length + 1) (hint.getD pos) off hf
  have hs := findFrom_sound data (signature % 65536) (signature / 65536 % 65536)
    (signature % 256) hbytes (by omega) (Nat.mod_lt _ (by norm_num))
    (data.length + 1) (hint.getD pos) off hf
  obtain ⟨h0, h1, h2, h3⟩ := hs
  refine ⟨hp, hbnd.1, h0, ?_, ?_, ?_⟩
  · have he : signature % 65536 / 256 = signature / 256 % 256 := by omega
    rw [← he]; exact h1
  · have he : signature / 65536 % 65536 % 256 = signature / 65536 % 256 := by omega
    rw [← he]; exact h2
  · have he : signature / 65536 % 65536 / 256 = signature / 16777216 % 256 := by omega
    rw [← he]; exact h3

/-- Witness for the amended C3 theorem at a concrete buffer with the EOCD
signature at offset 1. -/
theorem c3_scanner_sound_witness :
    (0 : Nat) = 0 ∧ (none : Option Nat).getD 0 ≤ 1 ∧
    sigBuf[1]? = some (EOCD_SIG % 256) ∧
    sigBuf[1 + 1]? = some (EOCD_SIG / 256 % 256) ∧
    sigBuf[1 + 2]? = some (EOCD_SIG / 65536 % 256) ∧
    sigBuf[1 + 3]? = some (EOCD_SIG / 16777216 % 256) :=
  c3_scanner_sound sigBuf EOCD_SIG 0 none 1 0 (by decide) (by decide) (by decide)

/-- Claim C6: when the EOCD signature scan fails (it can only fail by
exhausting the stream), `find_eocd` reports `EndOfCentralDirectoryNotFound`
— not the wrapped I/O error — and opening the stream with `ZipReader::new`
fails with that same error kind. -/
theorem c6_eocd_not_found (data : List Nat) (pos : Nat) (e : ZipError)
    (h : Ziplayer.find_next_signature data EOCD_SIG pos none = .error e) :
    Ziplayer.find_eocd data pos = .error .EndOfCentralDirectoryNotFound ∧
    (pos = 0 → Ziplayer.ZipReader.new data = .error .EndOfCentralDirectoryNotFound) := by
  have h1 : Ziplayer.find_eocd data pos = .error .EndOfCentralDirectoryNotFound := by
    unfold Ziplayer.find_eocd
    rw [h]
  refine ⟨h1, ?_⟩
  intro hp
  subst hp
  unfold Ziplayer.ZipReader.new
  rw [h1]

/-- Witness for C6: a 3-byte stream with no EOCD signature. -/
theorem c6_eocd_not_found_witness :
    Ziplayer.find_eocd [0, 0, 0] 0 = .error .EndOfCentralDirectoryNotFound ∧
    Ziplayer.ZipReader.new [0, 0, 0] = .error .EndOfCentralDirectoryNotFound := by
  have h := c6_eocd_not_found [0, 0, 0] 0 (.IOError .unexpectedEof) (by decide)
  exact ⟨h.1, h.2 rfl⟩

/-- Claim C4 counterexample: `index_archive` does NOT equal the reference
loop of spec section 4.3 when the scan step is the first-occurrence scan
the spec section 4.1 contract prescribes.  On `spurArchive` — a spurious
`0x50` byte followed by a valid 47-byte central-directory record at offset
1 — the reference loop `index_archive_spec` finds and indexes the record,
while `index_archive` returns an empty index: the source scanner consumes
the overlapping occurrence during its partial match at offset 0 and never
sees the record. -/
theorem c4_first_scan_counterexample :
    Ziplayer.index_archive spurArchive none = .ok ([], 48) ∧
    Ziplayer.index_archive_spec spurArchive none = .ok [([97], spurEntry)] ∧
    decide (Ziplayer.index_archive spurArchive none =
      Except.map (fun idx => (idx, spurArchive.length))
        (Ziplayer.index_archive_spec spurArchive none)) = false := by decide

/-- The source loop of `index_archive` agrees, step by step, with the
reference loop in which the scan step is the source scanner
(`index_archive_srcscan_loop`): same scan starting point, same decode,
same hint advance and insertion, end-of-stream ends with `Ok`, and other
failures propagate.  (The source loop additionally carries the reader
cursor; on success it reports the stream consumed, `data.length`.) -/
theorem index_loop_agrees_srcscan (data : List Nat) :
    ∀ fuel hint pos idx,
      Ziplayer.index_loop data fuel hint pos idx =
        Option.map (Except.map (fun i => (i, data.length)))
          (Ziplayer.index_archive_srcscan_loop data fuel hint idx) := by
  intro fuel
  induction fuel with
  | zero => intro hint pos idx; rfl
  | succ n ih =>
    intro hint pos idx
    have hcall : ∀ q : Nat, Ziplayer.find_next_signature data CD_SIG q (some hint) =
        match Ziplayer.findFrom data (CD_SIG % 65536) (CD_SIG / 65536 % 65536)
            (CD_SIG % 256) (data.length + 1) hint with
        | none => .error (.IOError .unexpectedEof)
        | some (.error e) => .error e
        | some (.ok offset) => .ok (offset, q) := fun q => rfl
    have e1 := hcall pos
    have e2 := hcall hint
    unfold Ziplayer.index_loop Ziplayer.index_archive_srcscan_loop
    cases hf : Ziplayer.findFrom data (CD_SIG % 65536) (CD_SIG / 65536 % 65536)
        (CD_SIG % 256) (data.length + 1) hint with
    | none =>
      rw [hf] at e1 e2
      dsimp only at e1 e2
      rw [e1, e2]
      rfl
    | some r =>
      rw [hf] at e1 e2
      cases r with
      | error e =>
        dsimp only at e1 e2
        rw [e1, e2]
        cases e with
        | IOError k => cases k <;> rfl
        | InvalidSignature s => rfl
        | EndOfCentralDirectoryNotFound => rfl
        | EntryNotFound q => rfl
        | InvalidEntry o => rfl
        | MismatchedCompressionMethod a b => rfl
        | InvalidUtf8 => rfl
      | ok o =>
        dsimp only at e1 e2
        rw [e1, e2]
        dsimp only
        cases hp : Ziplayer.parse_central_dir data o with
        | error e => rfl
        | ok pr =>
          obtain ⟨header, posAfter⟩ := pr
          dsimp only
          exact ih (hint + header.len) posAfter (alInsert idx header.filename header)

/-- Claim C4 (amended): `index_archive` equals the reference loop of spec
section 4.3 in every respect EXCEPT the scan primitive.  Against the loop
in which "find the next central-directory signature at or after the
current position" is performed by the source scanner
(`index_archive_srcscan`), the equality holds — same hint start (0 if
absent), same decode, same advance by the consumed length, same insertion
keyed by filename, `Ok` with the accumulated index on end-of-stream, any
other failure propagated as `Err`, modulo the final reader cursor the
source additionally returns.  Against the loop with the first-occurrence
scan the spec prescribes, the equality fails (see the counterexample). -/
theorem c4_index_archive_refines_srcscan_loop (data : List Nat) (hint : Option Nat) :
    Ziplayer.index_archive data hint =
      Except.map (fun idx => (idx, data.length))
        (Ziplayer.index_archive_srcscan data hint) := by
  unfold Ziplayer.index_archive Ziplayer.index_archive_srcscan
  rw [index_loop_agrees_srcscan]
  cases Ziplayer.index_archive_srcscan_loop data (data.length + 1) (hint.getD 0) [] with
  | none => rfl
  | some r =>
    cases r with
    | error e => rfl
    | ok i => rfl

/-- A successfully decoded central-directory record consumed at least the
46 fixed bytes, and the cursor ends exactly `len` bytes after `offset`. -/
theorem parse_central_dir_len (data : List Nat) (offset : Nat)
    (cd : Ziplayer.CentralDirectory) (p : Nat)
    (h : Ziplayer.parse_central_dir data offset = .ok (cd, p)) :
    46 ≤ cd.len ∧ p = offset + cd.len := by
  unfold Ziplayer.parse_central_dir at h
  repeat' split at h
  all_goals first
    | exact Except.noConfusion h
    | (simp only [Except.ok.injEq, Prod.mk.injEq] at h
       obtain ⟨rfl, rfl⟩ := h
       exact ⟨by dsimp only; omega, by dsimp only; omega⟩)

/-- The indexing loop cannot exhaust its fuel: every iteration either ends
the loop or advances the hint by at least 46 bytes, and the scan can only
succeed while at least 4 bytes remain past the hint. -/
theorem index_loop_no_fuel_exhaustion (data : List Nat) :
    ∀ fuel hint pos idx, data.length ≤ hint + 46 * fuel →
      Ziplayer.index_loop data (fuel + 1) hint pos idx ≠ none := by
  intro fuel
  induction fuel with
  | zero =>
    intro hint pos idx hb hcon
    unfold Ziplayer.index_loop at hcon
    cases hs : Ziplayer.find_next_signature data CD_SIG pos (some hint) with
    | error e =>
      rw [hs] at hcon
      dsimp only at hcon
      split at hcon <;> simp at hcon
    | ok r =>
      obtain ⟨off, p2⟩ := r
      obtain ⟨hf, -⟩ := find_next_signature_ok data CD_SIG pos (some hint) off p2 hs
      have hbd := findFrom_bounds data (CD_SIG % 65536) (CD_SIG / 65536 % 65536)
        (CD_SIG % 256) (data.length + 1) ((some hint).getD pos) off hf
      simp only [Option.getD_some] at hbd
      omega
  | succ n ih =>
    intro hint pos idx hb hcon
    unfold Ziplayer.index_loop at hcon
    cases hs : Ziplayer.find_next_signature data CD_SIG pos (some hint) with
    | error e =>
      rw [hs] at hcon
      dsimp only at hcon
      split at hcon <;> simp at hcon
    | ok r =>
      obtain ⟨off, p2⟩ := r
      rw [hs] at hcon
      dsimp only at hcon
      cases hp : Ziplayer.parse_central_dir data off with
      | error e => rw [hp] at hcon; simp at hcon
      | ok pr =>
        obtain ⟨header, posAfter⟩ := pr
        rw [hp] at hcon
        dsimp only at hcon
        have hlen := parse_central_dir_len data off header posAfter hp
        exact ih (hint + header.len) posAfter
          (alInsert idx header.filename header) (by omega) hcon

/-- Claim C10: `index_archive` terminates on every finite stream.  Every
decoded central-directory record has `len ≥ 46` (the fixed record size), so
the hint strictly increases each iteration; consequently the loop, given
any fuel covering `data.length` at 46 bytes per step, never diverges (never
returns the fuel-exhaustion marker), and in particular the fuel
`data.length + 1` used by `index_archive` always suffices. -/
theorem c10_index_archive_terminates :
    (∀ (data : List Nat) (offset : Nat) (cd : Ziplayer.CentralDirectory) (p : Nat),
       Ziplayer.parse_central_dir data offset = .ok (cd, p) →
       46 ≤ cd.len ∧ ∀ hint : Nat, hint < hint + cd.len) ∧
    (∀ (data : List Nat) (fuel hint pos : Nat)
       (idx : List (List Nat × Ziplayer.CentralDirectory)),
       data.length ≤ hint + 46 * fuel →
       Ziplayer.index_loop data (fuel + 1) hint pos idx ≠ none) ∧
    (∀ (data : List Nat) (hint : Option Nat),
       Ziplayer.index_loop data (data.length + 1) (hint.getD 0) 0 [] ≠ none) := by
  refine ⟨?_, ?_, ?_⟩
  · intro data offset cd p h
    have hl := parse_central_dir_len data offset cd p h
    exact ⟨hl.1, fun hint => by omega⟩
  · intro data fuel hint pos idx hb
    exact index_loop_no_fuel_exhaustion data fuel hint pos idx hb
  · intro data hint
    exact index_loop_no_fuel_exhaustion data data.length (hint.getD 0) 0 [] (by omega)

/-- Witness for C10 at concrete inputs: the decoded record `emptyFileRec`
has length 47 ≥ 46, and the loop terminates on a concrete empty stream and
on the minimal archive. -/
theorem c10_index_archive_terminates_witness :
    (46 ≤ emptyFileEntry.len ∧ ∀ hint : Nat, hint < hint + emptyFileEntry.len) ∧
    Ziplayer.index_loop [] (0 + 1) 5 0 [] ≠ none ∧
    Ziplayer.index_loop helloArchive (helloArchive.length + 1) ((some 44 : Option Nat).getD 0) 0 [] ≠ none := by
  refine ⟨c10_index_archive_terminates.1 emptyFileRec 0 emptyFileEntry 47 (by decide), ?_, ?_⟩
  · exact c10_index_archive_terminates.2.1 [] 0 5 0 [] (by decide)
  · exact c10_index_archive_terminates.2.2 helloArchive (some 44)

/-- Claim C8: path keys in the index are unique — inserting under an
existing key overwrites (last-write-wins), universally for the map model;
and concretely, indexing a stream that carries two central-directory
records with the same filename `a` leaves only the later record (crc32 2,
offset 47) resolvable under that path, as the sole entry of the index. -/
theorem c8_duplicate_last_write_wins :
    (∀ (α : Type) (m : List (List Nat × α)) (k : List Nat) (v : α),
       alGet (alInsert m k v) k = some v) ∧
    Ziplayer.index_archive dupArchive none = .ok ([([97], dupEntry2)], 94) ∧
    alGet [([97], dupEntry2)] [97] = some dupEntry2 ∧ dupEntry2.crc32 = 2 :=
  ⟨fun _ m k v => alGet_alInsert m k v, by decide, by decide, rfl⟩

/-- Claim C9: the two public derivations of "is this entry a directory"
disagree on a concrete central-directory record with `uncompressed_size == 0`
and external-attribute bit `0x10` clear: the index field `is_directory`
(computed as `uncompressed_size == 0` by `parse_central_dir`) is `true`,
while `ZipEntryInfo::from_central_dir` computes `is_dir` from the attribute
bit and reports `false`. -/
theorem c9_is_directory_disagreement :
    Ziplayer.parse_central_dir emptyFileRec 0 = .ok (emptyFileEntry, 47) ∧
    emptyFileEntry.is_directory = true ∧
    (Ziplayer.ZipEntryInfo.from_central_dir emptyFileEntry).is_dir = false ∧
    (emptyFileEntry.is_directory
      == (Ziplayer.ZipEntryInfo.from_central_dir emptyFileEntry).is_dir) = false := by
  decide

/-- Claim C1 (code bug in the extraction step): on the minimal one-file
archive, opening and listing is correct — `ZipReader::new` indexes exactly
one entry with compressed and uncompressed size 5 and `is_directory = false`
— and `dump_file` returns exactly the 5 stored payload bytes; but
`extract_file` with the identity codec does NOT write those bytes: it never
seeks to the payload of the entry and instead streams from the current reader
position (end-of-stream, cursor 121, after indexing), so the written file is
empty.  No starting cursor could help: the identity-codec stream output
(`drop pos`) differs from the payload for every position, because the
archive ends with the central directory and EOCD, not the payload. -/
theorem c1_end_to_end_extract_bug :
    Ziplayer.ZipReader.new helloArchive = .ok ([(helloName, helloEntry)], 121) ∧
    helloEntry.compressed_size = 5 ∧ helloEntry.uncompressed_size = 5 ∧
    helloEntry.is_directory = false ∧
    Ziplayer.dump_file helloArchive helloEntry = .ok (helloPayload, 44) ∧
    Ziplayer.extract_file helloFS helloArchive 121 helloEntry outDir NoCompressionCodec =
      (.ok (), { dirs := [[[111, 117, 116]]], files := [(helloDest, [])] }, 121) ∧
    FS.getFile { dirs := [[[111, 117, 116]]], files := [(helloDest, [])] } helloDest =
      some [] ∧
    (([] : List Nat) == helloPayload) = false ∧
    (∀ pos : Nat,
      (NoCompressionCodec.streamed_expansion (helloArchive.drop pos) == helloPayload)
        = false) := by
  refine ⟨by decide, rfl, rfl, rfl, by decide, by decide, by decide, by decide, ?_⟩
  intro pos
  by_contra hc
  have h : helloArchive.drop pos = helloPayload := by
    simp only [Bool.not_eq_false, beq_iff_eq] at hc
    exact hc
  have hlen := congrArg List.length h
  simp only [List.length_drop] at hlen
  have h2 : helloArchive.length = 121 := by decide
  have h4 : helloPayload.length = 5 := by decide
  have h3 : pos = 116 := by omega
  subst h3
  exact absurd h (by decide)

/-- Claim C2 counterexample: a mismatched-codec `extract_file` call does
change the destination filesystem.  With destination directory `d` present
and target `d/a` absent, extracting the stored-method entry `a` with a
codec of id 8 returns `MismatchedCompressionMethod(0, 8)` — but only after
`File::create` has run: afterwards the target path exists (as an empty
file), so the destination is not unchanged by the failed call. -/
theorem c2_partial_write_counterexample :
    Ziplayer.extract_file fsOnlyD [] 0 plainEntryA wtDir testCodec8 =
      (.error (.MismatchedCompressionMethod 0 8), fsOnlyDAfter, 0) ∧
    decide (FS.pathExists fsOnlyDAfter [[100], [97]]) = true ∧
    decide (FS.pathExists fsOnlyD [[100], [97]]) = false ∧
    FS.getFile fsOnlyDAfter [[100], [97]] = some [] := by decide

/-- Claim C2 (amended): with a codec whose id differs from the declared
declared method, the in-memory path `extract_data_from_cd` fails fast with
`MismatchedCompressionMethod(declared, supplied)` before any dump or expand
work; `extract_file` returns the same error before any streaming, but only
after creating the destination file: when the destination checks pass and
`File::create` succeeds, the failed call leaves the filesystem with exactly
one new, empty file at the target path (and the reader cursor untouched). -/
theorem c2_mismatch_behavior
    (data : List Nat) (pos : Nat) (cd : Ziplayer.CentralDirectory)
    (fs fs1 : FS) (wt : FPath) (codec : CompressionCodec)
    (hmid : codec.int_id ≠ cd.compression) :
    Ziplayer.extract_data_from_cd data cd codec =
      .error (.MismatchedCompressionMethod cd.compression codec.int_id) ∧
    (FS.pathExists fs wt → ¬ FS.pathExists fs (wt ++ splitPath cd.filename) →
      fs.createFile (wt ++ splitPath cd.filename) = .ok fs1 →
      fs1 = fs.setFile (wt ++ splitPath cd.filename) [] ∧
      Ziplayer.extract_file fs data pos cd wt codec =
        (.error (.MismatchedCompressionMethod cd.compression codec.int_id), fs1, pos)) := by
  constructor
  · unfold Ziplayer.extract_data_from_cd
    rw [if_pos (Ne.symm hmid)]
  · intro h1 h2 h3
    have hfs1 : fs1 = fs.setFile (wt ++ splitPath cd.filename) [] := by
      unfold FS.createFile at h3
      split at h3
      · simp only [Except.ok.injEq] at h3
        exact h3.symm
      · exact Except.noConfusion h3
    refine ⟨hfs1, ?_⟩
    unfold Ziplayer.extract_file
    dsimp only
    rw [if_neg (not_not_intro h1), if_neg h2, h3]
    dsimp only
    rw [if_pos hmid]

/-- Witness for the amended C2 theorem at the concrete mismatch scenario. -/
theorem c2_mismatch_behavior_witness :
    Ziplayer.extract_data_from_cd [] plainEntryA testCodec8 =
      .error (.MismatchedCompressionMethod 0 8) ∧
    (fsOnlyDAfter = fsOnlyD.setFile ([[100]] ++ splitPath plainEntryA.filename) [] ∧
     Ziplayer.extract_file fsOnlyD [] 0 plainEntryA [[100]] testCodec8 =
       (.error (.MismatchedCompressionMethod 0 8), fsOnlyDAfter, 0)) := by
  have h := c2_mismatch_behavior [] 0 plainEntryA fsOnlyD fsOnlyDAfter [[100]]
    testCodec8 (by decide)
  exact ⟨h.1, h.2 (by decide) (by decide) (by decide)⟩

/-- Claim C7 counterexample: `extract_file` creates no missing parent
directories.  The destination directory `d` exists, the target `d/a/b` does
not, and the codec matches — the claim then requires missing parents to be
created and the entry streamed — yet the call fails with a `NotFound` I/O
error (from `File::create` on the missing parent `d/a`) and the filesystem
is unchanged: no directory was created. -/
theorem c7_no_parent_creation_counterexample :
    decide (FS.pathExists fsOnlyD wtDir) = true ∧
    decide (FS.pathExists fsOnlyD (wtDir ++ splitPath nestedEntryAB.filename)) = false ∧
    NoCompressionCodec.int_id = nestedEntryAB.compression ∧
    Ziplayer.extract_file fsOnlyD [] 0 nestedEntryAB wtDir NoCompressionCodec =
      (.error (.IOError .notFound), fsOnlyD, 0) := by decide

/-- Claim C7 (amended): `extract_file` fails with a `NotFound` I/O error
when the destination directory does not exist; fails with `AlreadyExists`
— without overwriting — when the target path exists; otherwise calls
`File::create` directly, which creates NO parent directories (a missing
immediate parent makes it fail `NotFound`, and a successful create leaves
the directory set unchanged), and on the success path streams the streaming-expand
output of the codec over the remaining reader bytes into the target. -/
theorem c7_extract_dest_behavior
    (fs fs1 : FS) (data : List Nat) (pos : Nat) (cd : Ziplayer.CentralDirectory)
    (wt : FPath) (codec : CompressionCodec) (e : ZipError) :
    (¬ FS.pathExists fs wt →
       Ziplayer.extract_file fs data pos cd wt codec =
         (.error (.IOError .notFound), fs, pos)) ∧
    (FS.pathExists fs wt → FS.pathExists fs (wt ++ splitPath cd.filename) →
       Ziplayer.extract_file fs data pos cd wt codec =
         (.error (.IOError .alreadyExists), fs, pos)) ∧
    (FS.pathExists fs wt → ¬ FS.pathExists fs (wt ++ splitPath cd.filename) →
       fs.createFile (wt ++ splitPath cd.filename) = .error e →
       Ziplayer.extract_file fs data pos cd wt codec = (.error e, fs, pos)) ∧
    ((wt ++ splitPath cd.filename).dropLast ≠ [] →
       (wt ++ splitPath cd.filename).dropLast ∉ fs.dirs →
       fs.createFile (wt ++ splitPath cd.filename) = .error (.IOError .notFound)) ∧
    (∀ (fsA : FS) (p : FPath) (fsB : FS),
       fsA.createFile p = .ok fsB → fsB.dirs = fsA.dirs) ∧
    (FS.pathExists fs wt → ¬ FS.pathExists fs (wt ++ splitPath cd.filename) →
       fs.createFile (wt ++ splitPath cd.filename) = .ok fs1 →
       codec.int_id = cd.compression →
       Ziplayer.extract_file fs data pos cd wt codec =
         (.ok (), fs1.setFile (wt ++ splitPath cd.filename)
            (codec.streamed_expansion (data.drop pos)), data.length)) := by
  refine ⟨?_, ?_, ?_, ?_, ?_, ?_⟩
  · intro h1
    unfold Ziplayer.extract_file
    dsimp only
    rw [if_pos h1]
  · intro h1 h2
    unfold Ziplayer.extract_file
    dsimp only
    rw [if_neg (not_not_intro h1), if_pos h2]
  · intro h1 h2 h3
    unfold Ziplayer.extract_file
    dsimp only
    rw [if_neg (not_not_intro h1), if_neg h2, h3]
  · intro h1 h2
    unfold FS.createFile
    rw [if_neg (fun hor => hor.elim h1 h2)]
  · intro fsA p fsB h
    unfold FS.createFile at h
    split at h
    · simp only [Except.ok.injEq] at h
      rw [← h]
      rfl
    · exact Except.noConfusion h
  · intro h1 h2 h3 h4
    unfold Ziplayer.extract_file
    dsimp only
    rw [if_neg (not_not_intro h1), if_neg h2, h3]
    dsimp only
    rw [if_neg (not_not_intro h4)]

/-- Witness for the amended C7 theorem: each branch exercised at concrete
filesystems (missing destination directory; pre-existing target; missing
parent of a nested target; a successful create and stream). -/
theorem c7_extract_dest_behavior_witness :
    Ziplayer.extract_file { dirs := [], files := [] } [] 0 plainEntryA wtDir
      NoCompressionCodec = (.error (.IOError .notFound), { dirs := [], files := [] }, 0) ∧
    Ziplayer.extract_file { dirs := [[[100]]], files := [([[100], [97]], [5])] } [] 0
      plainEntryA wtDir NoCompressionCodec =
      (.error (.IOError .alreadyExists),
       { dirs := [[[100]]], files := [([[100], [97]], [5])] }, 0) ∧
    Ziplayer.extract_file fsOnlyD [] 0 nestedEntryAB wtDir NoCompressionCodec =
      (.error (.IOError .notFound), fsOnlyD, 0) ∧
    fsOnlyD.createFile (wtDir ++ splitPath nestedEntryAB.filename) =
      .error (.IOError .notFound) ∧
    fsOnlyDAfter.dirs = fsOnlyD.dirs ∧
    Ziplayer.extract_file fsOnlyD [] 0 plainEntryA wtDir NoCompressionCodec =
      (.ok (), fsOnlyDAfter.setFile (wtDir ++ splitPath plainEntryA.filename)
         (NoCompressionCodec.streamed_expansion (List.drop 0 ([] : List Nat))),
       ([] : List Nat).length) := by
  refine ⟨?_, ?_, ?_, ?_, ?_, ?_⟩
  · exact (c7_extract_dest_behavior { dirs := [], files := [] } fsOnlyDAfter [] 0
      plainEntryA wtDir NoCompressionCodec .InvalidUtf8).1 (by decide)
  · exact (c7_extract_dest_behavior { dirs := [[[100]]], files := [([[100], [97]], [5])] }
      fsOnlyDAfter [] 0 plainEntryA wtDir NoCompressionCodec .InvalidUtf8).2.1
      (by decide) (by decide)
  · exact (c7_extract_dest_behavior fsOnlyD fsOnlyDAfter [] 0 nestedEntryAB wtDir
      NoCompressionCodec (.IOError .notFound)).2.2.1 (by decide) (by decide) (by decide)
  · exact (c7_extract_dest_behavior fsOnlyD fsOnlyDAfter [] 0 nestedEntryAB wtDir
      NoCompressionCodec .InvalidUtf8).2.2.2.1 (by decide) (by decide)
  · exact (c7_extract_dest_behavior fsOnlyD fsOnlyDAfter [] 0 plainEntryA wtDir
      NoCompressionCodec .InvalidUtf8).2.2.2.2.1 fsOnlyD [[100], [97]] fsOnlyDAfter
      (by decide)
  · exact (c7_extract_dest_behavior fsOnlyD fsOnlyDAfter [] 0 plainEntryA wtDir
      NoCompressionCodec .InvalidUtf8).2.2.2.2.2 (by decide) (by decide) (by decide)
      (by decide)

/-- Claim C5 counterexample: the recovery indexer can fail outright on a
readable stream with no EOCD signature anywhere.  `truncCdStream` is the
4-byte stream `50 4B 01 02` — a bare central-directory signature with the
record truncated, containing no EOCD signature (`50 4B 05 06`) — and
`intensive_index_archive` returns the wrapped I/O error from the
central-directory walk instead of an `Ok` index. -/
theorem c5_intensive_err_counterexample :
    ZiplayerRead.intensive_index_archive truncCdStream =
      .error (.IOError .unexpectedEof) ∧
    decide ([0x50, 0x4B, 0x05, 0x06] <:+: truncCdStream) = false := by decide

/-- Inserting a fresh key appends the binding. -/
theorem alInsert_of_not_mem {α : Type} (m : List (List Nat × α)) (k : List Nat)
    (v : α) (h : k ∉ m.map Prod.fst) : alInsert m k v = m ++ [(k, v)] := by
  induction m with
  | nil => rfl
  | cons hd t ih =>
    obtain ⟨k', v'⟩ := hd
    have h1 : k' ≠ k := fun he => h (by simp [he])
    simp only [alInsert, if_neg h1, List.cons_append, List.cons.injEq, true_and]
    exact ih (fun hm => h (by simp [hm]))

/-- The keys after an insertion are among the inserted key and the old keys. -/
theorem alInsert_keys_subset {α : Type} (m : List (List Nat × α)) (k : List Nat)
    (v : α) : ((alInsert m k v).map Prod.fst) ⊆ k :: m.map Prod.fst := by
  induction m with
  | nil => simp [alInsert]
  | cons hd t ih =>
    obtain ⟨k', v'⟩ := hd
    intro x hx
    by_cases he : k' = k
    · subst he
      simp only [alInsert] at hx
      rw [if_pos trivial] at hx
      simp only [List.map_cons, List.mem_cons] at hx
      simp only [List.map_cons, List.mem_cons]
      tauto
    · simp only [alInsert] at hx
      rw [if_neg he] at hx
      simp only [List.map_cons, List.mem_cons] at hx
      simp only [List.map_cons, List.mem_cons]
      rcases hx with hx | hx
      · tauto
      · have hs := ih hx
        simp only [List.mem_cons] at hs
        tauto

/-- Insertion preserves key uniqueness. -/
theorem alInsert_keys_nodup {α : Type} (m : List (List Nat × α)) (k : List Nat)
    (v : α) (h : (m.map Prod.fst).Nodup) :
    ((alInsert m k v).map Prod.fst).Nodup := by
  induction m with
  | nil => simp [alInsert]
  | cons hd t ih =>
    obtain ⟨k', v'⟩ := hd
    simp only [List.map_cons, List.nodup_cons] at h
    by_cases he : k' = k
    · subst he
      simp only [alInsert]
      rw [if_pos trivial]
      simp only [List.map_cons, List.nodup_cons]
      exact h
    · simp only [alInsert]
      rw [if_neg he]
      simp only [List.map_cons, List.nodup_cons]
      refine ⟨?_, ih h.2⟩
      intro hmem
      rcases List.mem_cons.mp (alInsert_keys_subset t k v hmem) with h1 | h1
      · exact he h1
      · exact h.1 h1

/-- Folding key-disjoint insertions over a map with unique keys appends the
(value-transformed) bindings in order. -/
theorem foldl_alInsert_map {α β : Type} (f : α → β) :
    ∀ (l : List (List Nat × α)) (acc : List (List Nat × β)),
      (l.map Prod.fst).Nodup →
      (∀ k ∈ l.map Prod.fst, k ∉ acc.map Prod.fst) →
      List.foldl (fun m p => alInsert m p.1 (f p.2)) acc l =
        acc ++ l.map (fun p => (p.1, f p.2)) := by
  intro l
  induction l with
  | nil => intro acc _ _; simp
  | cons hd t ih =>
    obtain ⟨k, v⟩ := hd
    intro acc hn hdisj
    simp only [List.map_cons, List.nodup_cons] at hn
    simp only [List.foldl_cons]
    rw [alInsert_of_not_mem acc k (f v) (hdisj k (by simp))]
    have hdisj2 : ∀ k2 ∈ t.map Prod.fst, k2 ∉ (acc ++ [(k, f v)]).map Prod.fst := by
      intro k2 hk2
      simp only [List.map_append, List.mem_append, List.map_cons, List.map_nil,
        List.mem_singleton, List.mem_cons, List.not_mem_nil, or_false]
      rintro (hq | hq)
      · exact hdisj k2 (by simp [hk2]) hq
      · exact hn.1 (hq ▸ hk2)
    rw [ih (acc ++ [(k, f v)]) hn.2 hdisj2]
    simp

/-- A successful read.rs indexing loop reports cursor `data.length` and
preserves key uniqueness of the accumulated index. -/
theorem zr_index_loop_ok (data : List Nat) :
    ∀ fuel hint pos idx idx' p,
      ZiplayerRead.index_loop data fuel hint pos idx = some (.ok (idx', p)) →
      p = data.length ∧
      ((idx.map Prod.fst).Nodup → (idx'.map Prod.fst).Nodup) := by
  intro fuel
  induction fuel with
  | zero => intro hint pos idx idx' p h; simp [ZiplayerRead.index_loop] at h
  | succ n ih =>
    intro hint pos idx idx' p h
    unfold ZiplayerRead.index_loop at h
    cases hs : ZiplayerRead.find_next_signature data CD_SIG pos (some hint) with
    | error e =>
      rw [hs] at h
      dsimp only at h
      split at h
      · simp only [Option.some.injEq, Except.ok.injEq, Prod.mk.injEq] at h
        exact ⟨h.2.symm, fun hn => h.1 ▸ hn⟩
      · simp at h
    | ok r =>
      obtain ⟨off, p2⟩ := r
      rw [hs] at h
      dsimp only at h
      cases hp : ZiplayerRead.parse_central_dir data off with
      | error e => rw [hp] at h; simp at h
      | ok pr =>
        obtain ⟨header, posAfter⟩ := pr
        rw [hp] at h
        dsimp only at h
        have hrec := ih (hint + header.len) posAfter
          (alInsert idx header.filename header) idx' p h
        exact ⟨hrec.1, fun hn =>
          hrec.2 (alInsert_keys_nodup idx header.filename header hn)⟩

/-- The read.rs two-byte scanner reports end-of-stream when started at or
past the end of the data. -/
theorem scanFrom_at_end (data : List Nat) (s0 s1 s2 s3 fuel p : Nat)
    (hp : data.length ≤ p) :
    ZiplayerRead.scanFrom data s0 s1 s2 s3 (fuel + 1) p =
      some (.error (.IOError .unexpectedEof)) := by
  have h0 : data[p]? = none := List.getElem?_eq_none hp
  unfold ZiplayerRead.scanFrom
  rw [h0]

/-- The local-file-header scanning loop started at or past end-of-stream
immediately breaks with the accumulated map. -/
theorem lfh_loop_at_end (data : List Nat) (fuel p : Nat)
    (lh : List (List Nat × ZiplayerRead.LocalFileHeader))
    (hp : data.length ≤ p) :
    ZiplayerRead.lfh_loop data (fuel + 1) p lh = some (.ok lh) := by
  have hscan : ZiplayerRead.find_next_signature data LFH_SIG p none =
      .error (.IOError .unexpectedEof) := by
    unfold ZiplayerRead.find_next_signature
    simp only [Option.getD_none]
    rw [scanFrom_at_end data (LFH_SIG % 256) (LFH_SIG / 256 % 256)
      (LFH_SIG / 65536 % 256) (LFH_SIG / 16777216 % 256) data.length p hp]
  unfold ZiplayerRead.lfh_loop
  rw [hscan]
  dsimp only
  rw [if_pos rfl]

/-- Claim C5 (amended): `intensive_index_archive` needs no EOCD — it walks
the central directory from hint 0 — but it is only best-effort: a decode
failure in that walk (or in a local-header decode) propagates as `Err`.
Moreover, whenever the central-directory walk succeeds, the walk leaves the
reader at end-of-stream, so the subsequent local-file-header scan (which
starts from the current position, not from 0) finds nothing: the merged
result is exactly the central-directory view, every entry wrapped in the
`CentralDirectory` arm of the tagged union, and no local-header-only entry
is ever added. -/
theorem c5_intensive_cd_only (data : List Nat)
    (cdIdx : List (List Nat × ZiplayerRead.CentralDirectory)) (pos : Nat)
    (h : ZiplayerRead.index_archive data none = .ok (cdIdx, pos)) :
    pos = data.length ∧
    ZiplayerRead.intensive_index_archive data =
      .ok (cdIdx.map fun q => (q.1, ZiplayerRead.ZipEntry.CentralDirectory q.2)) := by
  have hloop : ZiplayerRead.index_loop data (data.length + 1) 0 0 [] =
      some (.ok (cdIdx, pos)) := by
    unfold ZiplayerRead.index_archive at h
    simp only [Option.getD_none] at h
    cases hl : ZiplayerRead.index_loop data (data.length + 1) 0 0 [] with
    | none =>
      rw [hl] at h
      exact Except.noConfusion h
    | some r =>
      rw [hl] at h
      dsimp only at h
      rw [h]
  have hshape := zr_index_loop_ok data (data.length + 1) 0 0 [] cdIdx pos hloop
  have hpos : pos = data.length := hshape.1
  have hnodup : (cdIdx.map Prod.fst).Nodup := hshape.2 (by simp)
  refine ⟨hpos, ?_⟩
  unfold ZiplayerRead.intensive_index_archive
  rw [h]
  dsimp only
  rw [hpos]
  rw [lfh_loop_at_end data data.length data.length [] (le_refl _)]
  dsimp only
  unfold ZiplayerRead.intensiveMerge
  dsimp only
  rw [foldl_alInsert_map ZiplayerRead.ZipEntry.CentralDirectory cdIdx [] hnodup
    (by simp)]
  simp

/-- Witness for the amended C5 theorem on the empty stream: the walk finds
nothing, and the recovery indexer returns the empty merged index. -/
theorem c5_intensive_cd_only_witness :
    (0 = ([] : List Nat).length) ∧
    ZiplayerRead.intensive_index_archive [] = .ok [] := by
  have h := c5_intensive_cd_only [] [] 0 (by decide)
  exact ⟨h.1, h.2⟩

